/-
Verification of the SCORE audio-transcription demo front-end.

This file gives a shallow embedding, in Lean 4, of the two algorithmically
substantial parts of the repository:

* the k-nearest-neighbour music recommender (`standardScale`,
  `applyScaling`, `euclideanDistance`, `recommendSongs` and the fixed
  reference library `REAL_SONG_LIBRARY`), and
* the client-side upload/processing job controller
  (`handleFileUpload`, `startStatusPolling`, `resetUpload`) together with
  the in-process mock transport (`mockUploadFile`, `startMockProcessing`,
  `getProcessingStatus`, `getProcessingResult` in scoreApi).

Modelling conventions:

* JavaScript numbers are modelled as real numbers (`ℝ`) in the recommender
  (the algorithms are exact-arithmetic algorithms; `Math.sqrt` becomes
  `Real.sqrt`) and as rationals (`ℚ`) in the controller and the mock
  transport, where every number handled is a literal.  The numeric literals
  of the reference library are mirrored once more as rationals
  (`LIBRARY_FEATURES_Q`) purely to obtain decidability of facts about the
  fixed data; a proved bridge lemma ties the mirror to the real-valued
  library used by the algorithm.
* A JavaScript array `a` of numbers indexed by a loop is modelled as a
  `List ℝ`, read with `List.getD` (in the source every read is in bounds).
  The `mean` and `std` arrays built by `standardScale` are modelled as the
  indexing functions `colMean data` and `colStd data`.
* `Array.prototype.sort` with comparator `(a, b) => a.distance - b.distance`
  is a stable sort by non-decreasing distance; it is modelled by
  `List.mergeSort` (Lean's stable merge sort) with the comparison
  `distLE a b = decide (a.2 ≤ b.2)`.
* The asynchronous controller is modelled as a state machine driven by an
  explicit event trace (submission, upload-progress callback, upload
  resolution, poll-timer tick, reset).  Each JavaScript callback body runs
  as one atomic step, which matches the run-to-completion semantics of the
  event loop.  Active `setInterval` handles are a list of
  (timer id, polled job id) pairs; `statusCheckInterval.current` is a
  separate, possibly dangling, reference.
-/
import Mathlib

namespace ScoreDemo

/-! ## Recommender data model (src/unnamed/part_001, lines 497-627) -/

/-- One row of `REAL_SONG_LIBRARY`:
`[title, artist, bpm, avg_pitch, pitch_range, key_stability, mode_major,
note_density, rhythm_variety]`.  The seven numeric columns are kept as a
list, matching the `song.slice(2)` access in `recommendSongs`. -/
structure Song where
  title : String
  artist : String
  features : List ℝ

/-- The `MusicFeatures` interface: the ordered 7-tuple of audio features. -/
structure MusicFeatures where
  bpm : ℝ
  average_pitch : ℝ
  pitch_range : ℝ
  key_stability : ℝ
  mode_major : ℝ
  note_density : ℝ
  rhythm_variety : ℝ

/-- The `SongRecommendation` interface. -/
structure SongRecommendation where
  title : String
  artist : String
  similarity_score : ℝ

/-- The fixed 20-entry reference library (part_001 lines 499-527). -/
noncomputable def REAL_SONG_LIBRARY : List Song :=
  [⟨"Clair de Lune", "Debussy", [60, 65.0, 35.0, 0.95, 0, 0.7, 1.2]⟩,
   ⟨"Gymnopédie No. 1", "Satie", [80, 50.0, 20.0, 0.90, 0, 0.5, 1.0]⟩,
   ⟨"The Four Seasons: Spring", "Vivaldi", [130, 70.0, 45.0, 0.88, 1, 2.8, 3.5]⟩,
   ⟨"Canon in D", "Pachelbel", [60, 55.0, 25.0, 0.98, 1, 1.0, 1.5]⟩,
   ⟨"Für Elise", "Beethoven", [130, 68.0, 38.0, 0.85, 0, 1.5, 2.2]⟩,
   ⟨"Can't Stop The Feeling!", "Timberlake", [113, 56.0, 30.0, 0.70, 1, 2.5, 2.0]⟩,
   ⟨"Imagine", "Lennon", [75, 52.0, 25.0, 0.80, 1, 1.0, 1.5]⟩,
   ⟨"A Thousand Miles", "Carlton", [95, 60.0, 30.0, 0.78, 1, 1.8, 1.8]⟩,
   ⟨"Happy", "Pharrell Williams", [160, 54.0, 28.0, 0.65, 1, 3.0, 2.5]⟩,
   ⟨"Shape of You", "Ed Sheeran", [96, 50.0, 22.0, 0.72, 0, 2.2, 1.6]⟩,
   ⟨"Blinding Lights", "The Weeknd", [171, 58.0, 35.0, 0.60, 0, 3.5, 3.0]⟩,
   ⟨"Take Five", "Dave Brubeck", [170, 60.5, 45.0, 0.50, 0, 3.5, 4.0]⟩,
   ⟨"So What", "Miles Davis", [140, 65.0, 55.0, 0.55, 1, 3.0, 4.5]⟩,
   ⟨"Rhapsody in Blue", "Gershwin", [100, 72.0, 50.0, 0.65, 1, 2.8, 3.8]⟩,
   ⟨"Strobe", "deadmau5", [128, 55.0, 30.0, 0.58, 0, 3.2, 3.2]⟩,
   ⟨"Levels", "Avicii", [126, 62.0, 40.0, 0.62, 1, 3.8, 3.5]⟩,
   ⟨"Aerodynamic", "Daft Punk", [120, 68.0, 42.0, 0.53, 0, 4.0, 4.2]⟩,
   ⟨"Libertango", "Piazzolla", [120, 65.0, 35.0, 0.70, 0, 2.5, 3.0]⟩,
   ⟨"Oye Como Va", "Santana", [128, 55.0, 30.0, 0.68, 1, 3.0, 3.5]⟩,
   ⟨"The Girl from Ipanema", "Jobim", [115, 58.0, 25.0, 0.75, 1, 1.5, 2.0]⟩]

/-- `mean[i]` as computed by `standardScale` (part_001 lines 553-556):
the arithmetic mean of column `i` of `data`. -/
noncomputable def colMean (data : List (List ℝ)) (i : ℕ) : ℝ :=
  (data.map fun row => row.getD i 0).sum / data.length

/-- The population variance of column `i` of `data`
(part_001 line 560, the value divided before `Math.sqrt`). -/
noncomputable def colVariance (data : List (List ℝ)) (i : ℕ) : ℝ :=
  (data.map fun row => (row.getD i 0 - colMean data i) ^ 2).sum / data.length

/-- `std[i]` as computed by `standardScale` (part_001 lines 559-562). -/
noncomputable def colStd (data : List (List ℝ)) (i : ℕ) : ℝ :=
  Real.sqrt (colVariance data i)

/-- `applyScaling` (part_001 lines 573-575):
`point.map((val, i) => (std[i] === 0 ? 0 : (val - mean[i]) / std[i]))`.
The same expression is used inline by `standardScale` (line 566) to scale
the library rows. -/
noncomputable def applyScaling (point : List ℝ) (mean std : ℕ → ℝ) : List ℝ :=
  point.mapIdx fun i v => if std i = 0 then 0 else (v - mean i) / std i

/-- The `scaled` component returned by `standardScale`
(part_001 lines 565-567). -/
noncomputable def standardScale (data : List (List ℝ)) : List (List ℝ) :=
  data.map fun row => applyScaling row (colMean data) (colStd data)

/-- `euclideanDistance` (part_001 lines 578-580). -/
noncomputable def euclideanDistance (a b : List ℝ) : ℝ :=
  Real.sqrt ((a.mapIdx fun i v => (v - b.getD i 0) ^ 2).sum)

/-- The comparator of `distances.sort((a, b) => a.distance - b.distance)`
(part_001 line 611), as the boolean ordering used by the stable sort. -/
noncomputable def distLE (a b : ℕ × ℝ) : Bool :=
  decide (a.2 ≤ b.2)

/-- The `distances` array before sorting (part_001 lines 605-608):
one `(index, distance)` pair per scaled library point, in library order. -/
noncomputable def distancesTo (query : List ℝ) (lib : List (List ℝ)) :
    List (ℕ × ℝ) :=
  lib.mapIdx fun i p => (i, euclideanDistance query p)

/-- The `distances` array after the stable ascending sort
(part_001 lines 610-611). -/
noncomputable def rankDistances (query : List ℝ) (lib : List (List ℝ)) :
    List (ℕ × ℝ) :=
  (distancesTo query lib).mergeSort distLE

/-- The similarity-score transform (part_001 line 617):
`Math.max(0, 100 - distance * 8)`. -/
noncomputable def similarityScore (d : ℝ) : ℝ :=
  max 0 (100 - d * 8)

/-- The `libraryFeatures` array (part_001 line 585): `song.slice(2)`. -/
noncomputable def libraryFeatures : List (List ℝ) :=
  REAL_SONG_LIBRARY.map Song.features

/-- The `scaledLibrary` produced by `standardScale` (part_001 line 588). -/
noncomputable def scaledLibrary : List (List ℝ) :=
  standardScale libraryFeatures

/-- The `inputVector` (part_001 lines 591-599): the feature fields in
library column order. -/
noncomputable def inputVector (f : MusicFeatures) : List ℝ :=
  [f.bpm, f.average_pitch, f.pitch_range, f.key_stability, f.mode_major,
   f.note_density, f.rhythm_variety]

/-- The `scaledInput` (part_001 line 602). -/
noncomputable def scaledInput (f : MusicFeatures) : List ℝ :=
  applyScaling (inputVector f) (colMean libraryFeatures) (colStd libraryFeatures)

/-- `recommendSongs` (part_001 lines 583-627): rank the whole library by
distance to the scaled input, truncate to `k` and attach titles, artists
and similarity scores. -/
noncomputable def recommendSongs (f : MusicFeatures) (k : ℕ) :
    List SongRecommendation :=
  ((rankDistances (scaledInput f) scaledLibrary).take k).map fun p =>
    { title := (REAL_SONG_LIBRARY.getD p.1 ⟨"", "", []⟩).title
      artist := (REAL_SONG_LIBRARY.getD p.1 ⟨"", "", []⟩).artist
      similarity_score := similarityScore p.2 }

/-- The feature columns of `REAL_SONG_LIBRARY`, times 100.  Every literal
in the source table is a multiple of 0.01, so the table can be mirrored
exactly as natural numbers; this mirror exists only to make facts about
the fixed data decidable, and a proved bridge lemma
(`libraryFeatures_bridge` below) ties it to the real-valued table used by
the algorithm. -/
def LIBRARY_FEATURES_X100 : List (List ℕ) :=
  [[6000, 6500, 3500, 95, 0, 70, 120],
   [8000, 5000, 2000, 90, 0, 50, 100],
   [13000, 7000, 4500, 88, 100, 280, 350],
   [6000, 5500, 2500, 98, 100, 100, 150],
   [13000, 6800, 3800, 85, 0, 150, 220],
   [11300, 5600, 3000, 70, 100, 250, 200],
   [7500, 5200, 2500, 80, 100, 100, 150],
   [9500, 6000, 3000, 78, 100, 180, 180],
   [16000, 5400, 2800, 65, 100, 300, 250],
   [9600, 5000, 2200, 72, 0, 220, 160],
   [17100, 5800, 3500, 60, 0, 350, 300],
   [17000, 6050, 4500, 50, 0, 350, 400],
   [14000, 6500, 5500, 55, 100, 300, 450],
   [10000, 7200, 5000, 65, 100, 280, 380],
   [12800, 5500, 3000, 58, 0, 320, 320],
   [12600, 6200, 4000, 62, 100, 380, 350],
   [12000, 6800, 4200, 53, 0, 400, 420],
   [12000, 6500, 3500, 70, 0, 250, 300],
   [12800, 5500, 3000, 68, 100, 300, 350],
   [11500, 5800, 2500, 75, 100, 150, 200]]

/-- Divide a mirror row by 100, recovering the real-valued feature row. -/
noncomputable def castRow (r : List ℕ) : List ℝ :=
  r.map fun n : ℕ => (n : ℝ) / 100

/-- Rebuild a `MusicFeatures` record from a feature list in column
order (the inverse of `inputVector` on 7-element lists). -/
noncomputable def musicFeaturesOfList (l : List ℝ) : MusicFeatures :=
  ⟨l.getD 0 0, l.getD 1 0, l.getD 2 0, l.getD 3 0, l.getD 4 0, l.getD 5 0,
   l.getD 6 0⟩

/-! ## Job controller data model (src/unnamed/part_000)

The `UploadPage` component owns one `uploadedFile : UploadedFile | null`
state cell, one `statusCheckInterval` ref holding the current
`setInterval` handle, a set of in-flight `uploadFile` promises, and the
poll callbacks those create.  We model it as a state machine driven by an
explicit event trace; each event runs one JavaScript callback body
atomically (run-to-completion).  `timers` is the set of active intervals,
as (timer id, polled job id) pairs; `currentTimer` mirrors the
`statusCheckInterval.current` ref, which may dangle after a
`clearInterval` because the source never nulls it. -/

/-- The `UploadStatus` union type of part_000 line 14 (the `idle` state is
`uploadedFile = none`). -/
inductive UploadStatus where
  | uploading
  | processing
  | completed
  | error
  deriving DecidableEq

/-- The `UploadedFile` record of part_000 lines 16-24. -/
structure UploadedFile where
  name : String
  size : ℕ
  status : UploadStatus
  progress : ℚ
  jobId : Option String
  error : Option String
  currentStep : Option String
  deriving DecidableEq

/-- The status values of `ProcessingStatus` (scoreApi lines 26-32). -/
inductive RespStatus where
  | queued
  | processing
  | completed
  | error
  deriving DecidableEq

/-- The body of a successful `/api/status` response. -/
structure StatusResponse where
  status : RespStatus
  progress : ℚ
  currentStep : Option String
  error : Option String
  deriving DecidableEq

/-- Resolution of one `getProcessingStatus` call: a response, or a
rejected promise. -/
inductive PollResult where
  | ok (resp : StatusResponse)
  | fail
  deriving DecidableEq

/-- One atomic callback execution of the controller:
`submit` runs `handleFileUpload` up to the `await uploadFile` suspension;
`uploadProgress` runs the byte-progress callback of upload `u`;
`uploadSuccess`/`uploadFailure` resume `handleFileUpload` when upload `u`
resolves; `pollTick` runs one `setInterval` callback of timer `t` with the
given poll outcome; `reset` runs `resetUpload`. -/
inductive Event where
  | submit (name : String) (size : ℕ)
  | uploadProgress (u : ℕ) (p : ℚ)
  | uploadSuccess (u : ℕ) (jobId : String)
  | uploadFailure (u : ℕ) (msg : String)
  | pollTick (t : ℕ) (r : PollResult)
  | reset
  deriving DecidableEq

/-- The controller state: the React state cell, the in-flight uploads, the
active interval timers, the `statusCheckInterval` ref, fresh-id counters,
and observable logs of the `getProcessingStatus` and
`getProcessingResult` calls issued. -/
structure ControllerState where
  uploadedFile : Option UploadedFile
  uploads : List ℕ
  nextUpload : ℕ
  timers : List (ℕ × String)
  currentTimer : Option ℕ
  nextTimer : ℕ
  statusCalls : List String
  resultFetches : List String
  deriving DecidableEq

/-- The initial (idle) controller state. -/
def initState : ControllerState := ⟨none, [], 0, [], none, 0, [], []⟩

/-- JavaScript `x || dflt` on an optional string: `undefined` and the
empty string are both falsy. -/
def orFalsy : Option String → String → String
  | some s, dflt => if s = "" then dflt else s
  | none, dflt => dflt

/-- `if (statusCheckInterval.current) clearInterval(...)`: remove the
timer the ref points to (if any) from the active set; the ref itself is
left untouched, as in the source. -/
def clearCurrentTimer (s : ControllerState) : List (ℕ × String) :=
  match s.currentTimer with
  | some t => s.timers.filter fun p => p.1 ≠ t
  | none => s.timers

/-- `startStatusPolling` (part_000 lines 102-109): clear the previous
interval through the ref, then install a fresh interval polling `jobId`
and store its handle in the ref. -/
def startStatusPolling (s : ControllerState) (jobId : String) : ControllerState :=
  { s with timers := (s.nextTimer, jobId) :: clearCurrentTimer s,
           currentTimer := some s.nextTimer,
           nextTimer := s.nextTimer + 1 }

/-- One atomic callback execution (part_000 lines 59-191).
Branch by branch:
* `submit` (lines 59-67): install a fresh `uploading` record with
  progress 0 and put a new upload in flight.
* `uploadProgress` (lines 71-73): `prev ? { ...prev, progress: min(p, 100) } : null`.
* `uploadSuccess` (lines 75-86): `prev ? { ...prev, status: processing,
  jobId, progress: 0, currentStep: ... } : null`, then
  `startStatusPolling` — called unconditionally, even when the state cell
  is already `null`.
* `uploadFailure` (lines 90-99): `prev ? { ...prev, status: error,
  error: msg } : null`.
* `pollTick` (lines 109-175): only an active timer fires; the callback
  first records the status call, then applies the progress/step update,
  then branches on the reported status: `completed` clears the interval
  through the ref, fetches the result and marks the record completed at
  progress 100; `error` clears the interval and records
  `status.error || 'Processing failed'`; a rejected poll clears the
  interval and records the synthesized backend-disconnected message.
* `reset` (lines 186-191): sets the state cell to `null` — and nothing
  else: no `clearInterval`, no upload cancellation. -/
def step (s : ControllerState) : Event → ControllerState
  | .submit name size =>
      { s with uploadedFile := some ⟨name, size, .uploading, 0, none, none, none⟩,
               uploads := s.nextUpload :: s.uploads,
               nextUpload := s.nextUpload + 1 }
  | .uploadProgress u p =>
      if u ∈ s.uploads then
        { s with uploadedFile := s.uploadedFile.map fun f =>
            { f with progress := min p 100 } }
      else s
  | .uploadSuccess u jobId =>
      if u ∈ s.uploads then
        startStatusPolling
          { s with uploads := s.uploads.erase u,
                   uploadedFile := s.uploadedFile.map fun f =>
                     { f with status := .processing, jobId := some jobId,
                              progress := 0,
                              currentStep := some "Starting processing..." } }
          jobId
      else s
  | .uploadFailure u msg =>
      if u ∈ s.uploads then
        { s with uploads := s.uploads.erase u,
                 uploadedFile := s.uploadedFile.map fun f =>
                   { f with status := .error, error := some msg } }
      else s
  | .pollTick t r =>
      match s.timers.lookup t with
      | none => s
      | some j =>
          let s0 := { s with statusCalls := s.statusCalls ++ [j] }
          match r with
          | .fail =>
              { s0 with timers := clearCurrentTimer s0,
                        uploadedFile := s0.uploadedFile.map fun f =>
                          { f with status := .error,
                                   error := some "Unable to get processing status, backend may be disconnected" } }
          | .ok resp =>
              let s1 := { s0 with uploadedFile := s0.uploadedFile.map fun f =>
                            { f with progress := resp.progress,
                                     currentStep := some (orFalsy resp.currentStep "Processing...") } }
              match resp.status with
              | .completed =>
                  { s1 with timers := clearCurrentTimer s1,
                            resultFetches := s1.resultFetches ++ [j],
                            uploadedFile := s1.uploadedFile.map fun f =>
                              { f with status := .completed, progress := 100 } }
              | .error =>
                  { s1 with timers := clearCurrentTimer s1,
                            uploadedFile := s1.uploadedFile.map fun f =>
                              { f with status := .error,
                                       error := some (orFalsy resp.error "Processing failed") } }
              | _ => s1
  | .reset => { s with uploadedFile := none }

/-- Run the controller from the idle initial state over an event trace. -/
def run (events : List Event) : ControllerState :=
  events.foldl step initState

/-- A quiescent single submission in its uploading phase: the displayed
file is `f`, still uploading, with exactly the one upload `u` in flight
and no poll timer (stale or otherwise) active. -/
def CleanUploading (s : ControllerState) (u : ℕ) (f : UploadedFile) : Prop :=
  s.uploadedFile = some f ∧ f.status = .uploading ∧ s.uploads = [u] ∧
  s.timers = []

/-- A quiescent single submission in its processing phase: the displayed
file is `f`, processing, no upload in flight, and exactly one active
timer `t` — the one the ref points to — polling job `j`. -/
def CleanProcessing (s : ControllerState) (t : ℕ) (j : String)
    (f : UploadedFile) : Prop :=
  s.uploadedFile = some f ∧ f.status = .processing ∧ s.uploads = [] ∧
  s.timers = [(t, j)] ∧ s.currentTimer = some t

/-- The timer invariant of claim C9: at most one interval is ever active,
and any active interval is the one the `statusCheckInterval` ref points
to. -/
def TimerInv (s : ControllerState) : Prop :=
  s.timers.length ≤ 1 ∧ ∀ p ∈ s.timers, s.currentTimer = some p.1

/-! ## Mock transport data model (src/src/api/scoreApi.ts) -/

/-- The progress values reported by `mockUploadFile` (scoreApi lines
120-131): `progress += 10` per tick, reported through
`onProgress(Math.min(progress, 100))` until 100. -/
def mockUploadReports : List ℚ :=
  [10, 20, 30, 40, 50, 60, 70, 80, 90, 100]

/-- A `ProcessingStatus` record held by a mock job. -/
structure MockStatus where
  jobId : String
  status : RespStatus
  progress : ℚ
  currentStep : String
  deriving DecidableEq

/-- The part of `createMockResult` (scoreApi lines 79-113) the claims
inspect; the payload fields are determined by these three inputs. -/
structure MockResult where
  jobId : String
  fileName : String
  fileSize : ℕ
  deriving DecidableEq

/-- One entry of the `mockJobs` map: the current status and the result,
present once produced. -/
structure MockJob where
  status : MockStatus
  result : Option MockResult
  deriving DecidableEq

/-- The staged `steps` table of `startMockProcessing` (scoreApi lines
156-165): (progress, step label, duration in ms). -/
def mockSteps : List (ℚ × String × ℕ) :=
  [(10, "Initializing", 500),
   (25, "Format conversion", 1000),
   (40, "Audio analysis", 1000),
   (60, "AI transcription (Omnizart)", 1500),
   (70, "Generating MusicXML", 800),
   (85, "Music engraving (LilyPond)", 1000),
   (95, "Instrument separation", 1000),
   (100, "Processing complete", 500)]

/-- `createMockResult` reduced to its identifying inputs. -/
def createMockResult (jobId fileName : String) (fileSize : ℕ) : MockResult :=
  ⟨jobId, fileName, fileSize⟩

/-- The job record installed by `mockUploadFile` on completion (scoreApi
lines 133-140): queued, progress 0, no result yet. -/
def initialMockJob (jobId : String) : MockJob :=
  ⟨⟨jobId, .queued, 0, "Initializing"⟩, none⟩

/-- One synchronous execution of `processNextStep` (scoreApi lines
169-205) at step index `i`:
* `i < steps.length` (lines 186-201): install the staged status — marked
  `completed` already at the last staged step — and, at the last staged
  step, also set the result within the same synchronous block;
* `i ≥ steps.length` (lines 170-183): set the result first, then the
  completed status. -/
def processNextStep (jobId fileName : String) (fileSize : ℕ) (i : ℕ)
    (job : MockJob) : MockJob :=
  if i < mockSteps.length then
    let st := mockSteps.getD i (0, "", 0)
    { status := ⟨jobId, if i < mockSteps.length - 1 then .processing else .completed,
        st.1, st.2.1⟩,
      result := if i = mockSteps.length - 1 then
          some (createMockResult jobId fileName fileSize)
        else job.result }
  else
    ⟨⟨jobId, .completed, 100, "Processing complete"⟩,
     some (createMockResult jobId fileName fileSize)⟩

/-- The mock job after `n` executions of `processNextStep`. -/
def mockJobAfter (jobId fileName : String) (fileSize : ℕ) : ℕ → MockJob
  | 0 => initialMockJob jobId
  | n + 1 => processNextStep jobId fileName fileSize n
      (mockJobAfter jobId fileName fileSize n)

/-- `getProcessingResult` in mock mode (scoreApi lines 302-309) for an
existing job: the result if present, otherwise the rejection
`Result not available`. -/
def getProcessingResultM (job : MockJob) : Except String MockResult :=
  match job.result with
  | some r => .ok r
  | none => .error "Result not available"

/-! ### Generic lemmas about the scaling and distance functions -/

theorem length_applyScaling (point : List ℝ) (mean std : ℕ → ℝ) :
    (applyScaling point mean std).length = point.length := by
  simp [applyScaling]

theorem getElem_applyScaling (point : List ℝ) (mean std : ℕ → ℝ) (i : ℕ)
    (h : i < (applyScaling point mean std).length) :
    (applyScaling point mean std)[i] =
      if std i = 0 then 0 else (point.getD i 0 - mean i) / std i := by
  have hp : i < point.length := by simpa [applyScaling] using h
  rw [List.getD_eq_getElem?_getD, List.getElem?_eq_getElem hp]
  simp [applyScaling]

/-- A list of reals each of whose members is non-negative and at least one
of whose members is positive has positive sum. -/
theorem list_sum_pos_of_mem {l : List ℝ} (hnn : ∀ x ∈ l, 0 ≤ x)
    {x : ℝ} (hx : x ∈ l) (hpos : 0 < x) : 0 < l.sum := by
  induction l with
  | nil => cases hx
  | cons a t ih =>
      rcases List.mem_cons.mp hx with rfl | hxt
      · have ht : 0 ≤ t.sum :=
          List.sum_nonneg fun y hy => hnn y (List.mem_cons_of_mem _ hy)
        simpa using add_pos_of_pos_of_nonneg hpos ht
      · have ha : 0 ≤ a := hnn a (List.mem_cons_self _ _)
        have ht : 0 < t.sum :=
          ih (fun y hy => hnn y (List.mem_cons_of_mem _ hy)) hxt
        simpa using add_pos_of_nonneg_of_pos ha ht

/-- The distance of any list to any list is non-negative. -/
theorem euclideanDistance_nonneg (a b : List ℝ) :
    0 ≤ euclideanDistance a b :=
  Real.sqrt_nonneg _

/-- The distance of a list to itself is zero. -/
theorem euclideanDistance_self (a : List ℝ) : euclideanDistance a a = 0 := by
  unfold euclideanDistance
  have h : ((a.mapIdx fun i v => (v - a.getD i 0) ^ 2).sum) = 0 := by
    apply List.sum_eq_zero
    intro x hx
    obtain ⟨i, hi, hx⟩ := List.exists_of_mem_mapIdx hx
    have : a.getD i 0 = a[i] := by
      simp [List.getD_eq_getElem?_getD, List.getElem?_eq_getElem hi]
    rw [← hx, this]
    ring
  rw [h, Real.sqrt_zero]

/-- Reading a scaled vector at an index whose standard deviation is zero
always yields 0, whether or not the index is in range. -/
theorem applyScaling_getD_of_std_zero (point : List ℝ) (mean std : ℕ → ℝ)
    (i : ℕ) (h : std i = 0) :
    (applyScaling point mean std).getD i 0 = 0 := by
  rcases lt_or_ge i point.length with hi | hi
  · have hlen : i < (applyScaling point mean std).length := by
      rw [length_applyScaling]; exact hi
    rw [List.getD_eq_getElem?_getD, List.getElem?_eq_getElem hlen]
    simp [getElem_applyScaling, h]
  · have hlen : (applyScaling point mean std).length ≤ i := by
      rw [length_applyScaling]; exact hi
    rw [List.getD_eq_getElem?_getD, List.getElem?_eq_none hlen]
    rfl

/-- On a constant column the computed mean is the constant. -/
theorem colMean_const (data : List (List ℝ)) (i : ℕ) (c : ℝ)
    (hne : data ≠ []) (hc : ∀ row ∈ data, row.getD i 0 = c) :
    colMean data i = c := by
  unfold colMean
  rw [List.sum_eq_card_nsmul _ c (by
    intro x hx
    obtain ⟨row, hrow, rfl⟩ := List.mem_map.mp hx
    exact hc row hrow)]
  have hlen : (data.length : ℝ) ≠ 0 := by
    have := List.length_pos.mpr hne
    positivity
  simp only [List.length_map, nsmul_eq_mul]
  field_simp

/-- On a constant column the computed population variance is zero. -/
theorem colVariance_const (data : List (List ℝ)) (i : ℕ) (c : ℝ)
    (hne : data ≠ []) (hc : ∀ row ∈ data, row.getD i 0 = c) :
    colVariance data i = 0 := by
  unfold colVariance
  rw [List.sum_eq_zero, zero_div]
  intro x hx
  obtain ⟨row, hrow, rfl⟩ := List.mem_map.mp hx
  rw [hc row hrow, colMean_const data i c hne hc]
  ring

/-- C2: if some dimension of a non-empty reference set is constant, the
fitted standard deviation on that dimension is 0, and scaling any input
vector with the fitted parameters — in particular the query vector — yields
exactly 0 on that dimension; so does every scaled library row.  The
division by the standard deviation is guarded by the `std === 0` test and
is unreachable there, so no NaN or Infinity can arise (the function is a
total real-valued function). -/
theorem scaler_constant_dimension_zero (data : List (List ℝ)) (i : ℕ) (c : ℝ)
    (hne : data ≠ []) (hc : ∀ row ∈ data, row.getD i 0 = c) :
    colStd data i = 0 ∧
    (∀ point : List ℝ,
      (applyScaling point (colMean data) (colStd data)).getD i 0 = 0) ∧
    (∀ srow ∈ standardScale data, srow.getD i 0 = 0) := by
  have hstd : colStd data i = 0 := by
    unfold colStd
    rw [colVariance_const data i c hne hc, Real.sqrt_zero]
  refine ⟨hstd, fun point => applyScaling_getD_of_std_zero _ _ _ _ hstd, ?_⟩
  intro srow hsrow
  obtain ⟨row, hrow, rfl⟩ := List.mem_map.mp hsrow
  exact applyScaling_getD_of_std_zero _ _ _ _ hstd

theorem scaler_constant_dimension_zero_witness :
    ([[1, 5], [3, 5]] : List (List ℝ)) ≠ [] ∧
    (applyScaling [10, 99] (colMean [[1, 5], [3, 5]])
      (colStd [[1, 5], [3, 5]])).getD 1 0 = 0 := by
  refine ⟨by simp, ?_⟩
  refine (scaler_constant_dimension_zero [[1, 5], [3, 5]] 1 5 (by simp) ?_).2.1 [10, 99]
  intro row hrow
  rcases List.mem_cons.mp hrow with rfl | hrow
  · rfl
  rcases List.mem_cons.mp hrow with rfl | hrow
  · rfl
  cases hrow

/-- Every entry of the unsorted distances array is non-negative. -/
theorem mem_distancesTo_nonneg (query : List ℝ) (lib : List (List ℝ))
    (p : ℕ × ℝ) (hp : p ∈ distancesTo query lib) : 0 ≤ p.2 := by
  obtain ⟨i, hi, hp⟩ := List.exists_of_mem_mapIdx hp
  rw [← hp]
  exact euclideanDistance_nonneg _ _

/-- C4: every returned recommendation carries the score
`max(0, 100 - distance * 8)` of some ranked (hence non-negative) distance;
on non-negative distances the score lies in `[0, 100]`; and wherever
`100 - distance * 8` is still positive the score is strictly decreasing in
the distance. -/
theorem similarity_score_spec :
    (∀ (f : MusicFeatures) (k : ℕ) (r : SongRecommendation),
      r ∈ recommendSongs f k →
      ∃ p ∈ rankDistances (scaledInput f) scaledLibrary,
        0 ≤ p.2 ∧ r.similarity_score = similarityScore p.2) ∧
    (∀ d : ℝ, 0 ≤ d → 0 ≤ similarityScore d ∧ similarityScore d ≤ 100) ∧
    (∀ d e : ℝ, 0 ≤ d → d < e → 0 < 100 - d * 8 →
      similarityScore e < similarityScore d) := by
  refine ⟨?_, ?_, ?_⟩
  · intro f k r hr
    obtain ⟨p, hp, rfl⟩ := List.mem_map.mp hr
    have hpr : p ∈ rankDistances (scaledInput f) scaledLibrary :=
      List.mem_of_mem_take hp
    refine ⟨p, hpr, ?_, rfl⟩
    exact mem_distancesTo_nonneg _ _ p
      ((List.mergeSort_perm _ _).subset hpr)
  · intro d hd
    constructor
    · exact le_max_left _ _
    · exact max_le (by norm_num) (by nlinarith)
  · intro d e hd hde hpos
    have h1 : similarityScore d = 100 - d * 8 := max_eq_right hpos.le
    rw [h1]
    exact max_lt hpos (by nlinarith)

theorem similarity_score_spec_witness :
    0 ≤ similarityScore 1 ∧ similarityScore 1 ≤ 100 ∧
    similarityScore 2 < similarityScore 1 :=
  ⟨(similarity_score_spec.2.1 1 (by norm_num)).1,
   (similarity_score_spec.2.1 1 (by norm_num)).2,
   similarity_score_spec.2.2 1 2 (by norm_num) (by norm_num) (by norm_num)⟩

theorem distLE_trans (a b c : ℕ × ℝ) (hab : distLE a b = true)
    (hbc : distLE b c = true) : distLE a c = true := by
  simp only [distLE, decide_eq_true_eq] at *
  exact le_trans hab hbc

theorem distLE_total (a b : ℕ × ℝ) : (distLE a b || distLE b a) = true := by
  simp only [distLE, Bool.or_eq_true, decide_eq_true_eq]
  exact le_total _ _

theorem distancesTo_length (query : List ℝ) (lib : List (List ℝ)) :
    (distancesTo query lib).length = lib.length := by
  simp [distancesTo]

theorem distancesTo_getElem (query : List ℝ) (lib : List (List ℝ)) (i : ℕ)
    (h : i < (distancesTo query lib).length) :
    (distancesTo query lib)[i] = (i, euclideanDistance query (lib.getD i [])) := by
  have hp : i < lib.length := by simpa [distancesTo_length] using h
  rw [List.getD_eq_getElem?_getD, List.getElem?_eq_getElem hp]
  simp [distancesTo]

theorem distancesTo_nodup (query : List ℝ) (lib : List (List ℝ)) :
    (distancesTo query lib).Nodup := by
  show List.Pairwise _ _
  rw [List.pairwise_iff_getElem]
  intro i j hi hj hij
  rw [distancesTo_getElem query lib i hi, distancesTo_getElem query lib j hj]
  intro hcontra
  exact absurd (congrArg Prod.fst hcontra) (Nat.ne_of_lt hij)

/-- Two elements sitting at increasing positions of a list form a sublist. -/
theorem sublist_pair_of_lt {α : Type} (l : List α) (i j : ℕ) (hij : i < j)
    (hi : i < l.length) (hj : j < l.length) :
    [l[i], l[j]].Sublist l := by
  induction l generalizing i j with
  | nil => cases hj
  | cons x t ih =>
      cases i with
      | zero =>
          cases j with
          | zero => cases hij
          | succ j =>
              have hjt : j < t.length := Nat.lt_of_succ_lt_succ hj
              simp only [List.getElem_cons_zero, List.getElem_cons_succ]
              refine List.Sublist.cons₂ x ?_
              exact List.singleton_sublist.mpr (List.getElem_mem hjt)
      | succ i =>
          cases j with
          | zero => cases hij
          | succ j =>
              simp only [List.getElem_cons_succ]
              exact List.Sublist.cons x
                (ih i j (Nat.lt_of_succ_lt_succ hij) (Nat.lt_of_succ_lt_succ hi)
                  (Nat.lt_of_succ_lt_succ hj))

/-- A two-element sublist pins down two increasing positions. -/
theorem pair_sublist_index {α : Type} {x y : α} {l : List α}
    (h : [x, y].Sublist l) :
    ∃ i j, ∃ (hi : i < l.length) (hj : j < l.length),
      i < j ∧ l[i] = x ∧ l[j] = y := by
  induction l with
  | nil => cases h
  | cons a t ih =>
      cases h with
      | cons _ htail =>
          obtain ⟨i, j, hi, hj, hij, hx, hy⟩ := ih htail
          exact ⟨i + 1, j + 1, Nat.succ_lt_succ hi, Nat.succ_lt_succ hj,
            Nat.succ_lt_succ hij, hx, hy⟩
      | cons₂ _ htail =>
          have hy : y ∈ t := List.singleton_sublist.mp htail
          obtain ⟨j, hj, hyj⟩ := List.getElem_of_mem hy
          exact ⟨0, j + 1, Nat.succ_pos _, Nat.succ_lt_succ hj,
            Nat.succ_pos _, rfl, hyj⟩

/-- The sorted distances list is pairwise non-decreasing in distance, with
ties in increasing library-index order (stability of the sort). -/
theorem rankDistances_pairwise (query : List ℝ) (lib : List (List ℝ)) :
    List.Pairwise (fun a b : ℕ × ℝ => a.2 ≤ b.2 ∧ (a.2 = b.2 → a.1 < b.1))
      (rankDistances query lib) := by
  have hperm := List.mergeSort_perm (distancesTo query lib) distLE
  have hsorted := List.sorted_mergeSort distLE_trans distLE_total
    (distancesTo query lib)
  have hnd : (rankDistances query lib).Nodup :=
    hperm.nodup_iff.mpr (distancesTo_nodup query lib)
  rw [List.pairwise_iff_getElem] at hsorted ⊢
  intro i j hi hj hij
  refine ⟨?_, ?_⟩
  · have := hsorted i j hi hj hij
    simpa [distLE] using this
  · intro heq
    set out := rankDistances query lib with hout
    have hmema : out[i] ∈ distancesTo query lib :=
      hperm.subset (List.getElem_mem hi)
    have hmemb : out[j] ∈ distancesTo query lib :=
      hperm.subset (List.getElem_mem hj)
    obtain ⟨ia, hia, haeq⟩ := List.getElem_of_mem hmema
    obtain ⟨ib, hib, hbeq⟩ := List.getElem_of_mem hmemb
    have hia1 : out[i].1 = ia := by
      rw [← haeq, distancesTo_getElem query lib ia hia]
    have hib1 : out[j].1 = ib := by
      rw [← hbeq, distancesTo_getElem query lib ib hib]
    rw [hia1, hib1]
    rcases lt_trichotomy ia ib with hlt | heqab | hgt
    · exact hlt
    · exfalso
      subst heqab
      have : out[i] = out[j] := by rw [← haeq, ← hbeq]
      exact absurd ((List.Nodup.getElem_inj_iff hnd).mp this) (Nat.ne_of_lt hij)
    · exfalso
      have hsub1 : [out[j], out[i]].Sublist (distancesTo query lib) := by
        have := sublist_pair_of_lt (distancesTo query lib) ib ia hgt hib hia
        rw [haeq, hbeq] at this
        exact this
      have hpw : List.Pairwise (fun a b => distLE a b = true) [out[j], out[i]] := by
        simp [distLE, heq]
      have hsub2 : [out[j], out[i]].Sublist out :=
        List.sublist_mergeSort distLE_trans distLE_total hpw hsub1
      obtain ⟨p, q, hp, hq, hpq, hpj, hqi⟩ := pair_sublist_index hsub2
      have hpj2 : p = j := (List.Nodup.getElem_inj_iff hnd).mp hpj
      have hqi2 : q = i := (List.Nodup.getElem_inj_iff hnd).mp hqi
      rw [hpj2, hqi2] at hpq
      exact absurd hij (Nat.lt_asymm hpq)

theorem rankDistances_length (query : List ℝ) (lib : List (List ℝ)) :
    (rankDistances query lib).length = lib.length := by
  rw [rankDistances, List.length_mergeSort, distancesTo_length]

theorem scaledLibrary_length :
    scaledLibrary.length = REAL_SONG_LIBRARY.length := by
  simp [scaledLibrary, standardScale, libraryFeatures]

/-- The length of the recommendation list, shared by the theorems for C1
and C5. -/
theorem recommendSongs_length (f : MusicFeatures) (k : ℕ) :
    (recommendSongs f k).length = min k REAL_SONG_LIBRARY.length := by
  rw [recommendSongs, List.length_map, List.length_take, rankDistances_length,
    scaledLibrary_length]

/-- C1: the ranker computes one distance per scaled library point (the
sorted list is a permutation of the per-point distances array), the sorted
list is non-decreasing in distance with ties in library insertion order,
the `k`-truncated result has exactly `min k |library|` entries, and when
`k ≥ |library|` the truncation returns the whole sorted library; for the
fixed-library recommender the returned list has `min k 20` entries. -/
theorem rank_min_k_sorted (query : List ℝ) (lib : List (List ℝ))
    (f : MusicFeatures) (k : ℕ) :
    (rankDistances query lib).Perm (distancesTo query lib) ∧
    List.Pairwise (fun a b : ℕ × ℝ => a.2 ≤ b.2 ∧ (a.2 = b.2 → a.1 < b.1))
      (rankDistances query lib) ∧
    ((rankDistances query lib).take k).length = min k lib.length ∧
    (lib.length ≤ k → (rankDistances query lib).take k = rankDistances query lib) ∧
    (recommendSongs f k).length = min k REAL_SONG_LIBRARY.length := by
  refine ⟨List.mergeSort_perm _ _, rankDistances_pairwise query lib, ?_, ?_,
    recommendSongs_length f k⟩
  · rw [List.length_take, rankDistances_length]
  · intro hk
    exact List.take_of_length_le (by rw [rankDistances_length]; exact hk)

theorem rank_min_k_sorted_witness :
    ([[1]] : List (List ℝ)).length ≤ 2 ∧
    (rankDistances [] [[1]]).take 2 = rankDistances [] [[1]] :=
  ⟨by simp,
   (rank_min_k_sorted [] [[1]] ⟨0, 0, 0, 0, 0, 0, 0⟩ 2).2.2.2.1 (by simp)⟩

/-! ### Distinctness facts about the fixed library (claim C3) -/

/-- Any two distinct rows of the library differ in the bpm column, the
average-pitch column or the key-stability column. -/
theorem library_x100_distinct :
    ∀ i < LIBRARY_FEATURES_X100.length, ∀ j < LIBRARY_FEATURES_X100.length,
      i ≠ j → ∃ d, d ∈ ([0, 1, 3] : List ℕ) ∧
        (LIBRARY_FEATURES_X100.getD i []).getD d 0 ≠
          (LIBRARY_FEATURES_X100.getD j []).getD d 0 := by
  decide

theorem library_x100_rows : ∀ r ∈ LIBRARY_FEATURES_X100, r.length = 7 := by
  decide

theorem library_x100_length : LIBRARY_FEATURES_X100.length = 20 := by decide

/-- The real-valued feature table of the algorithm is the mirror divided
by 100. -/
theorem libraryFeatures_bridge :
    libraryFeatures = LIBRARY_FEATURES_X100.map castRow := by
  norm_num [libraryFeatures, REAL_SONG_LIBRARY, LIBRARY_FEATURES_X100, castRow]

theorem libraryFeatures_length : libraryFeatures.length = 20 := by
  rw [libraryFeatures_bridge]
  simp [library_x100_length]

theorem castRow_length (r : List ℕ) : (castRow r).length = r.length := by
  simp [castRow]

theorem castRow_getD (r : List ℕ) (d : ℕ) :
    (castRow r).getD d 0 = ((r.getD d 0 : ℕ) : ℝ) / 100 := by
  have h2 : ((0 : ℕ) : ℝ) / 100 = (0 : ℝ) := by norm_num
  rw [castRow, ← h2, List.getD_map]

theorem libraryFeatures_rows :
    ∀ row ∈ libraryFeatures, row.length = 7 := by
  rw [libraryFeatures_bridge]
  intro row hrow
  obtain ⟨r, hr, rfl⟩ := List.mem_map.mp hrow
  rw [castRow_length]
  exact library_x100_rows r hr

theorem libraryFeatures_getD (i d : ℕ) :
    (libraryFeatures.getD i []).getD d 0 =
      ((LIBRARY_FEATURES_X100.getD i []).getD d 0 : ℝ) / 100 := by
  rw [libraryFeatures_bridge]
  have h1 : castRow [] = ([] : List ℝ) := rfl
  rw [← h1, List.getD_map, castRow_getD]

/-- A column with two members holding different values has positive
standard deviation. -/
theorem colStd_pos (data : List (List ℝ)) (i : ℕ) (r1 r2 : List ℝ)
    (h1 : r1 ∈ data) (h2 : r2 ∈ data)
    (hne : r1.getD i 0 ≠ r2.getD i 0) : 0 < colStd data i := by
  unfold colStd
  rw [Real.sqrt_pos]
  unfold colVariance
  have hlenpos : 0 < (data.length : ℝ) := by
    have : data ≠ [] := by rintro rfl; cases h1
    have := List.length_pos.mpr this
    positivity
  apply div_pos _ hlenpos
  set m := colMean data i with hm
  rcases eq_or_ne (r1.getD i 0) m with he1 | hne1
  · have hne2 : r2.getD i 0 - m ≠ 0 := by
      intro hcon
      have h3 : r2.getD i 0 = m := sub_eq_zero.mp hcon
      exact hne (he1.trans h3.symm)
    refine list_sum_pos_of_mem ?_
      (List.mem_map_of_mem (fun row => (row.getD i 0 - m) ^ 2) h2) ?_
    · intro x hx
      obtain ⟨row, hrow, rfl⟩ := List.mem_map.mp hx
      positivity
    · exact pow_two_pos_of_ne_zero hne2
  · have hne2 : r1.getD i 0 - m ≠ 0 := sub_ne_zero.mpr hne1
    refine list_sum_pos_of_mem ?_
      (List.mem_map_of_mem (fun row => (row.getD i 0 - m) ^ 2) h1) ?_
    · intro x hx
      obtain ⟨row, hrow, rfl⟩ := List.mem_map.mp hx
      positivity
    · exact pow_two_pos_of_ne_zero hne2

/-- The bpm, average-pitch and key-stability columns of the fixed library
have positive standard deviation. -/
theorem colStd_libraryFeatures_pos :
    ∀ d ∈ ([0, 1, 3] : List ℕ), 0 < colStd libraryFeatures d := by
  have hlen : 0 < libraryFeatures.length := by rw [libraryFeatures_length]; norm_num
  have hlen1 : 1 < libraryFeatures.length := by rw [libraryFeatures_length]; norm_num
  have hm0 : libraryFeatures.getD 0 [] ∈ libraryFeatures := by
    rw [List.getD_eq_getElem?_getD, List.getElem?_eq_getElem hlen]
    exact List.getElem_mem hlen
  have hm1 : libraryFeatures.getD 1 [] ∈ libraryFeatures := by
    rw [List.getD_eq_getElem?_getD, List.getElem?_eq_getElem hlen1]
    exact List.getElem_mem hlen1
  intro d hd
  rcases List.mem_cons.mp hd with rfl | hd
  · refine colStd_pos libraryFeatures 0 _ _ hm0 hm1 ?_
    rw [libraryFeatures_getD, libraryFeatures_getD]
    norm_num [LIBRARY_FEATURES_X100]
  rcases List.mem_cons.mp hd with rfl | hd
  · refine colStd_pos libraryFeatures 1 _ _ hm0 hm1 ?_
    rw [libraryFeatures_getD, libraryFeatures_getD]
    norm_num [LIBRARY_FEATURES_X100]
  rcases List.mem_cons.mp hd with rfl | hd
  · refine colStd_pos libraryFeatures 3 _ _ hm0 hm1 ?_
    rw [libraryFeatures_getD, libraryFeatures_getD]
    norm_num [LIBRARY_FEATURES_X100]
  cases hd

/-- Scaling two vectors that differ at a dimension with positive standard
deviation keeps them at positive Euclidean distance. -/
theorem euclid_applyScaling_pos (a b : List ℝ) (mean std : ℕ → ℝ) (d : ℕ)
    (hda : d < a.length) (hdb : d < b.length)
    (hstd : 0 < std d) (hne : a.getD d 0 ≠ b.getD d 0) :
    0 < euclideanDistance (applyScaling a mean std) (applyScaling b mean std) := by
  unfold euclideanDistance
  rw [Real.sqrt_pos]
  have hda2 : d < (applyScaling a mean std).length := by
    rw [length_applyScaling]; exact hda
  have hdb2 : d < (applyScaling b mean std).length := by
    rw [length_applyScaling]; exact hdb
  have hmaplen : d < ((applyScaling a mean std).mapIdx fun i v =>
      (v - (applyScaling b mean std).getD i 0) ^ 2).length := by
    rw [List.length_mapIdx]; exact hda2
  refine list_sum_pos_of_mem ?_ (List.getElem_mem hmaplen) ?_
  · intro x hx
    obtain ⟨i, hi, rfl⟩ := List.exists_of_mem_mapIdx hx
    positivity
  · rw [List.getElem_mapIdx]
    have hsa : (applyScaling a mean std)[d] = (a.getD d 0 - mean d) / std d := by
      rw [getElem_applyScaling _ _ _ _ hda2, if_neg (ne_of_gt hstd)]
    have hsb : (applyScaling b mean std).getD d 0 = (b.getD d 0 - mean d) / std d := by
      rw [List.getD_eq_getElem?_getD, List.getElem?_eq_getElem hdb2]
      simp only [Option.getD_some]
      rw [getElem_applyScaling _ _ _ _ hdb2, if_neg (ne_of_gt hstd)]
    rw [hsa, hsb, div_sub_div_same]
    have hnum : a.getD d 0 - mean d - (b.getD d 0 - mean d) =
        a.getD d 0 - b.getD d 0 := by ring
    rw [hnum]
    apply pow_two_pos_of_ne_zero
    exact div_ne_zero (sub_ne_zero.mpr hne) (ne_of_gt hstd)

/-- If `x` is a member of `l` with strictly smallest distance component,
the stable sort puts `x` first. -/
theorem mergeSort_head_of_unique_min (l : List (ℕ × ℝ)) (x : ℕ × ℝ)
    (hx : x ∈ l) (hmin : ∀ y ∈ l, y ≠ x → x.2 < y.2) :
    ∃ rest, l.mergeSort distLE = x :: rest := by
  have hperm := List.mergeSort_perm l distLE
  have hsorted := List.sorted_mergeSort distLE_trans distLE_total l
  have hxout : x ∈ l.mergeSort distLE := hperm.mem_iff.mpr hx
  cases hout : l.mergeSort distLE with
  | nil => rw [hout] at hxout; cases hxout
  | cons h rest =>
      refine ⟨rest, ?_⟩
      rw [hout] at hxout hsorted
      have hh : h ∈ l := hperm.subset (by rw [hout]; exact List.mem_cons_self _ _)
      rcases List.mem_cons.mp hxout with rfl | hxrest
      · rfl
      rcases eq_or_ne h x with rfl | hne
      · rfl
      exfalso
      have hle : distLE h x = true := (List.pairwise_cons.mp hsorted).1 x hxrest
      have hlt := hmin h hh hne
      simp only [distLE, decide_eq_true_eq] at hle
      linarith

theorem inputVector_ofList (l : List ℝ) (h : l.length = 7) :
    inputVector (musicFeaturesOfList l) = l := by
  rcases l with _ | ⟨a, l⟩
  · simp at h
  rcases l with _ | ⟨b, l⟩
  · simp at h
  rcases l with _ | ⟨c, l⟩
  · simp at h
  rcases l with _ | ⟨d, l⟩
  · simp at h
  rcases l with _ | ⟨e, l⟩
  · simp at h
  rcases l with _ | ⟨f, l⟩
  · simp at h
  rcases l with _ | ⟨g, l⟩
  · simp at h
  rcases l with _ | ⟨x, l⟩
  · rfl
  · simp only [List.length_cons] at h
    omega

theorem REAL_SONG_LIBRARY_length : REAL_SONG_LIBRARY.length = 20 := by
  simp [REAL_SONG_LIBRARY]

theorem similarityScore_zero : similarityScore 0 = 100 := by
  unfold similarityScore
  norm_num

theorem scaledLibrary_getD (i : ℕ) (hi : i < libraryFeatures.length) :
    scaledLibrary.getD i [] =
      applyScaling (libraryFeatures.getD i [])
        (colMean libraryFeatures) (colStd libraryFeatures) := by
  have hi2 : i < scaledLibrary.length := by
    unfold scaledLibrary standardScale
    rw [List.length_map]; exact hi
  rw [List.getD_eq_getElem?_getD, List.getElem?_eq_getElem hi2]
  rw [List.getD_eq_getElem?_getD, List.getElem?_eq_getElem hi]
  simp only [Option.getD_some]
  simp only [scaledLibrary, standardScale, List.getElem_map]

theorem getD_mem_of_lt {α : Type} (l : List α) (i : ℕ) (d : α)
    (h : i < l.length) : l.getD i d ∈ l := by
  rw [List.getD_eq_getElem?_getD, List.getElem?_eq_getElem h]
  exact List.getElem_mem h

/-- C3: querying the fixed-library recommender with the raw feature tuple
of library entry `i` ranks entry `i` first at distance exactly 0, and the
first returned recommendation is that entry with similarity score exactly
100. -/
theorem identical_query_entry_first (i : ℕ)
    (hi : i < REAL_SONG_LIBRARY.length) :
    (∃ rest,
      rankDistances (scaledInput (musicFeaturesOfList (libraryFeatures.getD i [])))
        scaledLibrary = (i, (0 : ℝ)) :: rest) ∧
    (recommendSongs (musicFeaturesOfList (libraryFeatures.getD i [])) 5).head? =
      some ⟨(REAL_SONG_LIBRARY.getD i ⟨"", "", []⟩).title,
            (REAL_SONG_LIBRARY.getD i ⟨"", "", []⟩).artist, 100⟩ := by
  have hlib20 : libraryFeatures.length = REAL_SONG_LIBRARY.length := by
    rw [libraryFeatures, List.length_map]
  have hil : i < libraryFeatures.length := by rw [hlib20]; exact hi
  have his : i < scaledLibrary.length := by rw [scaledLibrary_length]; exact hi
  set q := musicFeaturesOfList (libraryFeatures.getD i []) with hq
  have hmemrow : libraryFeatures.getD i [] ∈ libraryFeatures :=
    getD_mem_of_lt _ _ _ hil
  have hrowlen : (libraryFeatures.getD i []).length = 7 :=
    libraryFeatures_rows _ hmemrow
  have hinput : inputVector q = libraryFeatures.getD i [] :=
    inputVector_ofList _ hrowlen
  have e1 : scaledInput q =
      applyScaling (libraryFeatures.getD i [])
        (colMean libraryFeatures) (colStd libraryFeatures) := by
    rw [scaledInput, hinput]
  have hscaledIn : scaledInput q = scaledLibrary.getD i [] := by
    rw [e1, scaledLibrary_getD i hil]
  set l := distancesTo (scaledInput q) scaledLibrary with hl
  have hllen : l.length = scaledLibrary.length := distancesTo_length _ _
  have hiel : i < l.length := by rw [hllen]; exact his
  have hielem : l[i] = (i, (0 : ℝ)) := by
    rw [distancesTo_getElem _ _ i hiel, ← hscaledIn, euclideanDistance_self]
  have hx : (i, (0 : ℝ)) ∈ l := by
    rw [← hielem]
    exact List.getElem_mem hiel
  have hmin : ∀ y ∈ l, y ≠ (i, (0 : ℝ)) → ((i, (0 : ℝ)).2 < y.2) := by
    intro y hy hne
    obtain ⟨j, hj, hyeq⟩ := List.getElem_of_mem hy
    have hyval : y = (j, euclideanDistance (scaledInput q) (scaledLibrary.getD j [])) := by
      rw [← hyeq, distancesTo_getElem _ _ j hj]
    rcases eq_or_ne j i with rfl | hji
    · exact absurd (by rw [← hyeq, hielem]) hne
    · have hjl : j < libraryFeatures.length := by
        rw [hlib20, ← scaledLibrary_length, ← hllen]; exact hj
      have hmemrowj : libraryFeatures.getD j [] ∈ libraryFeatures :=
        getD_mem_of_lt _ _ _ hjl
      have hrowjlen : (libraryFeatures.getD j []).length = 7 :=
        libraryFeatures_rows _ hmemrowj
      have hi20 : i < LIBRARY_FEATURES_X100.length := by
        rw [library_x100_length, ← REAL_SONG_LIBRARY_length]; exact hi
      have hj20 : j < LIBRARY_FEATURES_X100.length := by
        rw [library_x100_length, ← REAL_SONG_LIBRARY_length, ← hlib20]; exact hjl
      obtain ⟨d, hdmem, hdne⟩ :=
        library_x100_distinct i hi20 j hj20 (Ne.symm hji)
      have hd7 : d < 7 := by
        rcases List.mem_cons.mp hdmem with rfl | hdmem
        · norm_num
        rcases List.mem_cons.mp hdmem with rfl | hdmem
        · norm_num
        rcases List.mem_cons.mp hdmem with rfl | hdmem
        · norm_num
        cases hdmem
      have hneR : (libraryFeatures.getD i []).getD d 0 ≠
          (libraryFeatures.getD j []).getD d 0 := by
        rw [libraryFeatures_getD, libraryFeatures_getD]
        intro hcon
        apply hdne
        have h100 : (((LIBRARY_FEATURES_X100.getD i []).getD d 0 : ℕ) : ℝ) =
            (((LIBRARY_FEATURES_X100.getD j []).getD d 0 : ℕ) : ℝ) := by
          linarith [hcon]
        exact_mod_cast h100
      have hstd : 0 < colStd libraryFeatures d :=
        colStd_libraryFeatures_pos d hdmem
      have hpos : 0 < euclideanDistance (scaledInput q) (scaledLibrary.getD j []) := by
        rw [e1, scaledLibrary_getD j hjl]
        exact euclid_applyScaling_pos _ _ _ _ d (by rw [hrowlen]; exact hd7)
          (by rw [hrowjlen]; exact hd7) hstd hneR
      rw [hyval]
      exact hpos
  obtain ⟨rest, hsort⟩ := mergeSort_head_of_unique_min l (i, (0 : ℝ)) hx hmin
  have hrank : rankDistances (scaledInput q) scaledLibrary = (i, (0 : ℝ)) :: rest :=
    hsort
  refine ⟨⟨rest, hrank⟩, ?_⟩
  rw [recommendSongs, hrank]
  have htake : ((i, (0 : ℝ)) :: rest).take 5 = (i, (0 : ℝ)) :: rest.take 4 := rfl
  rw [htake, List.map_cons, List.head?_cons, similarityScore_zero]

theorem identical_query_entry_first_witness :
    0 < REAL_SONG_LIBRARY.length ∧
    (recommendSongs (musicFeaturesOfList (libraryFeatures.getD 0 [])) 5).head? =
      some ⟨(REAL_SONG_LIBRARY.getD 0 ⟨"", "", []⟩).title,
            (REAL_SONG_LIBRARY.getD 0 ⟨"", "", []⟩).artist, 100⟩ :=
  ⟨by simp [REAL_SONG_LIBRARY],
   (identical_query_entry_first 0 (by simp [REAL_SONG_LIBRARY])).2⟩

/-! ### Job controller: reset and error handling (claims C6, C7) -/

/-- C6 counterexample: `resetUpload` clears neither the in-flight upload
nor the interval ref, and a stale upload resolution after reset starts a
poll loop, so a status call is issued after the reset (with no new
submission in between). -/
theorem reset_leaves_timer_counterexample :
    (run [.submit "song.mp3" 1000, .reset, .uploadSuccess 0 "job-1"]).timers =
      [(0, "job-1")] ∧
    (run [.submit "song.mp3" 1000, .reset, .uploadSuccess 0 "job-1",
      .pollTick 0 (.ok ⟨.processing, 40, some "Audio analysis", none⟩)]).statusCalls =
      ["job-1"] := by
  decide

/-- C6 (amended): `resetUpload` always returns the controller to idle
(`uploadedFile = null`) and — because every callback guards its state
update with `prev ? ... : null` — no stale upload or poll callback can
resurrect the displayed file while no new submission happens; but reset
does not cancel the in-flight upload or the poll timer (both survive
verbatim), so stale callbacks still run and still issue status calls. -/
theorem reset_spec :
    (∀ s : ControllerState, (step s .reset).uploadedFile = none ∧
      (step s .reset).timers = s.timers ∧ (step s .reset).uploads = s.uploads) ∧
    (∀ (s : ControllerState) (e : Event), s.uploadedFile = none →
      (∀ name size, e ≠ .submit name size) →
      (step s e).uploadedFile = none) := by
  refine ⟨fun s => ⟨rfl, rfl, rfl⟩, ?_⟩
  intro s e h hne
  cases e with
  | submit name size => exact absurd rfl (hne name size)
  | uploadProgress u p =>
      by_cases hu : u ∈ s.uploads <;> simp [step, hu, h]
  | uploadSuccess u j =>
      by_cases hu : u ∈ s.uploads <;> simp [step, startStatusPolling, hu, h]
  | uploadFailure u m =>
      by_cases hu : u ∈ s.uploads <;> simp [step, hu, h]
  | pollTick t r =>
      cases hl : s.timers.lookup t with
      | none => simp [step, hl, h]
      | some j =>
          cases r with
          | fail => simp [step, hl, h]
          | ok resp =>
              obtain ⟨st, pr, cs, er⟩ := resp
              cases st <;> simp [step, hl, h]
  | reset => simp [step]

theorem reset_spec_witness :
    (step initState (.pollTick 0 .fail)).uploadedFile = none :=
  reset_spec.2 initState (.pollTick 0 .fail) rfl
    (fun name size hcon => Event.noConfusion hcon)

/-- Filtering away every pair with key `t` makes `lookup t` fail. -/
theorem lookup_filter_self (l : List (ℕ × String)) (t : ℕ) :
    ((l.filter fun p => p.1 ≠ t).lookup t) = none := by
  induction l with
  | nil => rfl
  | cons x l ih =>
      by_cases hx : x.1 = t
      · simpa [List.filter_cons, hx] using ih
      · simpa [List.filter_cons, hx, List.lookup_cons, Ne.symm hx] using ih

/-- C7 counterexample: a poll response carrying `status = error` with the
empty string as message is recorded as the fallback text
`Processing failed`, not verbatim. -/
theorem poll_error_empty_message_counterexample :
    ((run [.submit "a" 1, .uploadSuccess 0 "j",
        .pollTick 0 (.ok ⟨.error, 50, none, some ""⟩)]).uploadedFile.map
      UploadedFile.error) = some (some "Processing failed") ∧
    "Processing failed" ≠ "" := by
  refine ⟨by decide, by decide⟩

/-- C7 (amended): while processing, with the ref pointing at the active
timer for job `j`, a poll reporting `status = error` moves the controller
to the error state recording `status.error || 'Processing failed'` — the
returned message verbatim exactly when it is non-empty — and clears the
interval, after which that timer can never fire again; a rejected poll
likewise clears the interval and records the synthesized
backend-unreachable message. -/
theorem poll_error_stops_polling (s : ControllerState) (f : UploadedFile)
    (t : ℕ) (j : String) (resp : StatusResponse)
    (hfile : s.uploadedFile = some f) (hproc : f.status = .processing)
    (hlook : s.timers.lookup t = some j) (hcur : s.currentTimer = some t)
    (herr : resp.status = .error) :
    (step s (.pollTick t (.ok resp))).uploadedFile =
      some { f with progress := resp.progress,
                    currentStep := some (orFalsy resp.currentStep "Processing..."),
                    status := .error,
                    error := some (orFalsy resp.error "Processing failed") } ∧
    (step s (.pollTick t (.ok resp))).timers =
      s.timers.filter (fun p => p.1 ≠ t) ∧
    ((step s (.pollTick t (.ok resp))).timers.lookup t = none) ∧
    (∀ m : String, m ≠ "" → orFalsy (some m) "Processing failed" = m) ∧
    ((step s (.pollTick t .fail)).uploadedFile =
      some { f with status := .error,
                    error := some "Unable to get processing status, backend may be disconnected" } ∧
     (step s (.pollTick t .fail)).timers =
       s.timers.filter (fun p => p.1 ≠ t)) := by
  obtain ⟨st, pr, cs, er⟩ := resp
  cases herr
  refine ⟨?_, ?_, ?_, ?_, ?_, ?_⟩
  · simp [step, hlook, hfile, clearCurrentTimer, hcur]
  · simp [step, hlook, clearCurrentTimer, hcur]
  · simp only [step, hlook, clearCurrentTimer, hcur]
    exact lookup_filter_self _ _
  · intro m hm
    simp [orFalsy, hm]
  · simp [step, hlook, hfile, clearCurrentTimer, hcur]
  · simp [step, hlook, clearCurrentTimer, hcur]

theorem poll_error_stops_polling_witness :
    (step (run [.submit "a" 1, .uploadSuccess 0 "j"])
        (.pollTick 0 (.ok ⟨.error, 50, none, some "disk full"⟩))).uploadedFile =
      some ⟨"a", 1, .error, 50, some "j", some "disk full",
        some "Processing..."⟩ ∧
    (step (run [.submit "a" 1, .uploadSuccess 0 "j"])
        (.pollTick 0 (.ok ⟨.error, 50, none, some "disk full"⟩))).timers = [] := by
  have h := poll_error_stops_polling (run [.submit "a" 1, .uploadSuccess 0 "j"])
    ⟨"a", 1, .processing, 0, some "j", none, some "Starting processing..."⟩
    0 "j" ⟨.error, 50, none, some "disk full"⟩ (by decide) rfl (by decide) rfl rfl
  refine ⟨by rw [h.1]; rfl, by rw [h.2.1]; decide⟩

/-! ### Job controller: progress monotonicity (claim C8) -/

/-- C8 counterexample: the poll timer of a previous submission (which
neither `resetUpload` nor a new `handleFileUpload` cancels) overwrites
`progress` with the stale job's progress while the second submission is
still uploading: the displayed progress regresses from 50 to 10 inside the
uploading phase. -/
theorem progress_regression_counterexample :
    ((run [.submit "a" 1, .uploadSuccess 0 "j1", .reset, .submit "b" 2,
        .uploadProgress 1 50]).uploadedFile.map
      fun f => (f.status, f.progress)) = some (.uploading, 50) ∧
    ((run [.submit "a" 1, .uploadSuccess 0 "j1", .reset, .submit "b" 2,
        .uploadProgress 1 50,
        .pollTick 0 (.ok ⟨.processing, 10, some "Initializing", none⟩)]).uploadedFile.map
      fun f => (f.status, f.progress)) = some (.uploading, 10) := by
  refine ⟨by decide, by decide⟩

/-- C8 (amended): for a submission started on a quiescent controller (no
stale timer or upload), progress never decreases within the uploading
phase as long as the transport reports non-decreasing values — as the mock
transport does — no poll can touch the state during upload, the
uploading→processing transition resets progress to 0 exactly once (the
upload is consumed, so a repeated resolution is a no-op), and within the
processing phase progress follows the polled values, which are
non-decreasing for the mock's staged sequence. -/
theorem progress_monotone_clean_submission :
    (∀ name size, CleanUploading (step initState (.submit name size)) 0
      ⟨name, size, .uploading, 0, none, none, none⟩) ∧
    (∀ (s : ControllerState) (u : ℕ) (f : UploadedFile) (p : ℚ),
      CleanUploading s u f → f.progress ≤ min p 100 →
      CleanUploading (step s (.uploadProgress u p)) u
        { f with progress := min p 100 }) ∧
    (∀ (s : ControllerState) (u : ℕ) (f : UploadedFile) (t : ℕ) (r : PollResult),
      CleanUploading s u f → step s (.pollTick t r) = s) ∧
    (∀ (s : ControllerState) (u : ℕ) (f : UploadedFile) (j : String),
      CleanUploading s u f →
      CleanProcessing (step s (.uploadSuccess u j)) s.nextTimer j
        { f with status := .processing, jobId := some j, progress := 0,
                 currentStep := some "Starting processing..." } ∧
      (∀ u2 j2, step (step s (.uploadSuccess u j)) (.uploadSuccess u2 j2) =
        step s (.uploadSuccess u j))) ∧
    (∀ (s : ControllerState) (t : ℕ) (j : String) (f : UploadedFile)
      (resp : StatusResponse),
      CleanProcessing s t j f → resp.status = .processing →
      f.progress ≤ resp.progress →
      CleanProcessing (step s (.pollTick t (.ok resp))) t j
        { f with progress := resp.progress,
                 currentStep := some (orFalsy resp.currentStep "Processing...") }) ∧
    List.Chain' (· ≤ ·) mockUploadReports ∧
    List.Chain' (· ≤ ·) ((0 : ℚ) :: mockSteps.map fun st => st.1) := by
  refine ⟨?_, ?_, ?_, ?_, ?_, by norm_num [mockUploadReports, List.chain'_cons],
    by norm_num [mockSteps, List.chain'_cons]⟩
  · intro name size
    exact ⟨rfl, rfl, rfl, rfl⟩
  · rintro s u f p ⟨hfile, hstat, hups, htim⟩ hmono
    refine ⟨?_, hstat, ?_, ?_⟩ <;> simp [step, hups, hfile, htim]
  · rintro s u f t r ⟨hfile, hstat, hups, htim⟩
    simp [step, htim]
  · rintro s u f j ⟨hfile, hstat, hups, htim⟩
    constructor
    · refine ⟨?_, rfl, ?_, ?_, ?_⟩ <;>
        simp [step, hups, hfile, startStatusPolling, clearCurrentTimer, htim] <;>
        cases s.currentTimer <;> simp
    · intro u2 j2
      set s2 := step s (.uploadSuccess u j) with hs2
      have hdone : s2.uploads = [] := by
        rw [hs2]
        simp [step, hups, startStatusPolling]
      show step s2 (.uploadSuccess u2 j2) = s2
      simp [step, hdone]
  · rintro s t j f resp ⟨hfile, hstat, hups, htim, hcur⟩ hresp hmono
    have hlook : s.timers.lookup t = some j := by
      rw [htim]
      simp [List.lookup_cons]
    obtain ⟨st, pr, cs, er⟩ := resp
    cases hresp
    refine ⟨?_, ?_, ?_, ?_, ?_⟩ <;>
      simp [step, hlook, hfile, hstat, hups, htim, hcur]

theorem progress_monotone_clean_submission_witness :
    CleanUploading (step (run [.submit "a" 1]) (.uploadProgress 0 30)) 0
      { name := "a", size := 1, status := .uploading, progress := min 30 100,
        jobId := none, error := none, currentStep := none } :=
  progress_monotone_clean_submission.2.1 (run [.submit "a" 1]) 0
    ⟨"a", 1, .uploading, 0, none, none, none⟩ 30 ⟨rfl, rfl, rfl, rfl⟩
    (by norm_num)

/-! ### Job controller: timer uniqueness (claim C9) -/

/-- Under the timer invariant the guarded `clearInterval` empties the
active-timer set. -/
theorem clearCurrentTimer_eq_nil (s : ControllerState) (h : TimerInv s) :
    clearCurrentTimer s = [] := by
  obtain ⟨hlen, hall⟩ := h
  unfold clearCurrentTimer
  cases htim : s.timers with
  | nil => cases hcur : s.currentTimer <;> simp
  | cons p l =>
      cases l with
      | nil =>
          have hcur := hall p (by rw [htim]; exact List.mem_cons_self _ _)
          rw [hcur]
          simp
      | cons q l2 => rw [htim] at hlen; simp at hlen

/-- Each controller step either leaves the timer set and ref untouched,
replaces the timer set by the guarded clear, or clears and installs one
fresh timer whose handle goes into the ref. -/
theorem step_timers_cases (s : ControllerState) (e : Event) :
    ((step s e).timers = s.timers ∧ (step s e).currentTimer = s.currentTimer) ∨
    ((step s e).timers = clearCurrentTimer s ∧
      (step s e).currentTimer = s.currentTimer) ∨
    (∃ j, (step s e).timers = (s.nextTimer, j) :: clearCurrentTimer s ∧
      (step s e).currentTimer = some s.nextTimer) := by
  cases e with
  | submit name size => left; exact ⟨rfl, rfl⟩
  | uploadProgress u p =>
      left
      by_cases hu : u ∈ s.uploads <;> simp [step, hu]
  | uploadFailure u m =>
      left
      by_cases hu : u ∈ s.uploads <;> simp [step, hu]
  | uploadSuccess u j =>
      by_cases hu : u ∈ s.uploads
      · right; right
        refine ⟨j, ?_, ?_⟩ <;>
          simp [step, hu, startStatusPolling, clearCurrentTimer]
      · left; simp [step, hu]
  | pollTick t r =>
      cases hl : s.timers.lookup t with
      | none => left; simp [step, hl]
      | some j =>
          cases r with
          | fail => right; left; simp [step, hl, clearCurrentTimer]
          | ok resp =>
              obtain ⟨st, pr, cs, er⟩ := resp
              cases st with
              | completed => right; left; simp [step, hl, clearCurrentTimer]
              | error => right; left; simp [step, hl, clearCurrentTimer]
              | queued => left; simp [step, hl]
              | processing => left; simp [step, hl]
  | reset => left; exact ⟨rfl, rfl⟩

/-- Every step of the controller preserves the timer invariant. -/
theorem step_timerInv (s : ControllerState) (e : Event) (hs : TimerInv s) :
    TimerInv (step s e) := by
  obtain ⟨hlen, hall⟩ := hs
  rcases step_timers_cases s e with ⟨h1, h2⟩ | ⟨h1, h2⟩ | ⟨j, h1, h2⟩
  · refine ⟨?_, ?_⟩
    · rw [h1]; exact hlen
    · intro p hp
      rw [h1] at hp
      rw [h2]
      exact hall p hp
  · have hc : clearCurrentTimer s = [] := clearCurrentTimer_eq_nil s ⟨hlen, hall⟩
    rw [hc] at h1
    refine ⟨?_, ?_⟩
    · rw [h1]; simp
    · intro p hp
      rw [h1] at hp
      cases hp
  · have hc : clearCurrentTimer s = [] := clearCurrentTimer_eq_nil s ⟨hlen, hall⟩
    rw [hc] at h1
    refine ⟨?_, ?_⟩
    · rw [h1]; simp
    · intro p hp
      rw [h1] at hp
      rw [h2, List.mem_singleton.mp hp]

/-- C9 counterexample: submitting again while the previous submission is
polling does not cancel the previous timer — the stale timer survives the
new `submit` and fires a poll against the stale job id after the new
submission has begun. -/
theorem stale_poll_after_new_submission_counterexample :
    (run [.submit "a" 1, .uploadSuccess 0 "j1", .submit "b" 2]).timers =
      [(0, "j1")] ∧
    (run [.submit "a" 1, .uploadSuccess 0 "j1", .submit "b" 2,
      .pollTick 0 (.ok ⟨.processing, 30, none, none⟩)]).statusCalls = ["j1"] := by
  refine ⟨by decide, by decide⟩

/-- C9 (amended): in every reachable state at most one poll timer is
active (and it is the one the ref knows); but the previous submission's
timer is cancelled only when the new submission's own polling starts at
upload success — `submit` itself leaves the timers untouched, so a stale
poll can still fire during the new submission's upload phase. -/
theorem at_most_one_timer :
    (∀ events, TimerInv (run events)) ∧
    (∀ s name size, (step s (.submit name size)).timers = s.timers) ∧
    (∀ (s : ControllerState) (u : ℕ) (j : String), TimerInv s → u ∈ s.uploads →
      (step s (.uploadSuccess u j)).timers = [(s.nextTimer, j)]) := by
  refine ⟨?_, fun s name size => rfl, ?_⟩
  · have aux : ∀ (l : List Event) (s : ControllerState), TimerInv s →
        TimerInv (List.foldl step s l) := by
      intro l
      induction l with
      | nil => exact fun s hs => hs
      | cons e l ih => exact fun s hs => ih _ (step_timerInv s e hs)
    exact fun events => aux events initState ⟨by simp [initState], by simp [initState]⟩
  · intro s u j hs hu
    have hc : clearCurrentTimer s = [] := clearCurrentTimer_eq_nil s hs
    have htc : (step s (.uploadSuccess u j)).timers =
        (s.nextTimer, j) :: clearCurrentTimer s := by
      cases hcur : s.currentTimer <;>
        simp [step, hu, startStatusPolling, clearCurrentTimer, hcur]
    rw [htc, hc]

theorem at_most_one_timer_witness :
    (step (run [.submit "a" 1, .uploadSuccess 0 "j1", .submit "b" 2])
      (.uploadSuccess 1 "j2")).timers =
      [((run [.submit "a" 1, .uploadSuccess 0 "j1", .submit "b" 2]).nextTimer,
        "j2")] :=
  at_most_one_timer.2.2 (run [.submit "a" 1, .uploadSuccess 0 "j1", .submit "b" 2])
    1 "j2" ⟨by decide, by decide⟩ (by decide)

/-! ### Recommender totality (claim C5) -/

/-- C5: `recommendSongs` contains no validation and no failure path: it is
a total function that returns a ranking of exactly `min k 20` entries for
every feature vector and every `k`; there is no code path that rejects an
input with `InvalidInput` (or at all). -/
theorem recommendSongs_total (f : MusicFeatures) (k : ℕ) :
    (recommendSongs f k).length = min k REAL_SONG_LIBRARY.length :=
  recommendSongs_length f k

/-! ### Mock transport: completed implies result available (claim C10) -/

theorem mockSteps_length : mockSteps.length = 8 := rfl

/-- C10: at every point of the staged mock processing sequence, whenever
the job's status reads `completed` the result has already been set in the
same synchronous step, so `getProcessingResult` issued after observing
`completed` succeeds (never the `Result not available` rejection). -/
theorem mock_completed_result_available (jobId fileName : String)
    (fileSize n : ℕ)
    (h : (mockJobAfter jobId fileName fileSize n).status.status = .completed) :
    ∃ r, getProcessingResultM (mockJobAfter jobId fileName fileSize n) =
      Except.ok r := by
  cases n with
  | zero =>
      simp [mockJobAfter, initialMockJob] at h
  | succ n =>
      show ∃ r, getProcessingResultM
        (processNextStep jobId fileName fileSize n
          (mockJobAfter jobId fileName fileSize n)) = Except.ok r
      rcases lt_or_ge n mockSteps.length with hn | hn
      · by_cases h7 : n = mockSteps.length - 1
        · have hres : (processNextStep jobId fileName fileSize n
              (mockJobAfter jobId fileName fileSize n)).result =
              some (createMockResult jobId fileName fileSize) := by
            simp [processNextStep, hn, h7]
            split <;> rfl
          refine ⟨createMockResult jobId fileName fileSize, ?_⟩
          unfold getProcessingResultM
          rw [hres]
        · exfalso
          have hlt : n < mockSteps.length - 1 := by
            rw [mockSteps_length] at hn h7 ⊢
            omega
          have h2 : (processNextStep jobId fileName fileSize n
              (mockJobAfter jobId fileName fileSize n)).status.status =
              .processing := by
            simp [processNextStep, hn, hlt]
          rw [show (mockJobAfter jobId fileName fileSize (n + 1)) =
            processNextStep jobId fileName fileSize n
              (mockJobAfter jobId fileName fileSize n) from rfl] at h
          rw [h2] at h
          cases h
      · simp [processNextStep, Nat.not_lt.mpr hn, getProcessingResultM]

theorem mock_completed_result_available_witness :
    (mockJobAfter "job-1" "song.mp3" 1000 8).status.status = .completed ∧
    ∃ r, getProcessingResultM (mockJobAfter "job-1" "song.mp3" 1000 8) =
      Except.ok r :=
  ⟨by decide,
   mock_completed_result_available "job-1" "song.mp3" 1000 8 (by decide)⟩

end ScoreDemo
